import Mathlib

/-!
Verification development for the `interview-notify-advanced` log-monitoring
pipeline (`interview_notify.py`, `interview_database.py`).

The Python source is shallowly embedded: each relevant Python function is
translated into an executable Lean definition over `String` / `List Char`.
Python's `in` operator, `str.strip`, `str.lower`, slicing, and the two
regular expressions used by the structured extractions are modelled by
explicit recursive functions whose semantics follow the Python/`re`
behaviour on the (single-line, ASCII) inputs the program consumes.
-/

/-- Whitespace test matching Python's `str.isspace` / regex `\s` on ASCII
characters (space, tab, newline, carriage return, vertical tab, form feed). -/
def isPySpace (c : Char) : Bool :=
  c = ' ' || c = '\t' || c = '\n' || c = '\r' || c = '\x0b' || c = '\x0c'

/-- ASCII decimal digit test, matching regex `\d` on the ASCII inputs used here. -/
def isDigitC (c : Char) : Bool :=
  '0' ≤ c && c ≤ '9'

/-- Lowercasing matching Python's `str.lower` on ASCII text. -/
def lowerStr (s : String) : String :=
  ⟨s.data.map Char.toLower⟩

/-- Python's `str.strip()`: drop leading and trailing whitespace. -/
def pyStrip (s : String) : String :=
  ⟨((s.data.dropWhile isPySpace).reverse.dropWhile isPySpace).reverse⟩

/-- Python's slice `s[:n]`: the first `n` characters of `s`. -/
def pyTake (n : Nat) (s : String) : String :=
  ⟨s.data.take n⟩

/-- Is `pre` a prefix of `l`? -/
def isPrefixL : List Char → List Char → Bool
  | [], _ => true
  | _ :: _, [] => false
  | a :: as, b :: bs => a = b && isPrefixL as bs

/-- Does `hay` contain `needle` as a contiguous sublist? -/
def containsL (needle : List Char) : List Char → Bool
  | [] => needle.isEmpty
  | c :: t => isPrefixL needle (c :: t) || containsL needle t

/-- Python's substring test `needle in hay`. -/
def pyIn (needle hay : String) : Bool :=
  containsL needle.data hay.data

/-- Strip a case-sensitive literal from the front, returning the remainder. -/
def dropLit : List Char → List Char → Option (List Char)
  | [], cs => some cs
  | _ :: _, [] => none
  | l :: lt, c :: ct => if c = l then dropLit lt ct else none

/-- Strip a case-insensitive literal from the front (regex `re.IGNORECASE`
on ASCII literals), returning the remainder. -/
def dropLitCI : List Char → List Char → Option (List Char)
  | [], cs => some cs
  | _ :: _, [] => none
  | l :: lt, c :: ct => if c.toLower = l.toLower then dropLitCI lt ct else none

/-- Regex `\s+`: require at least one whitespace character, then consume the
maximal whitespace run (greedy; the following pattern pieces in the source
regexes start with non-whitespace, so no backtracking can occur). -/
def reqSpaces : List Char → Option (List Char)
  | [] => none
  | c :: t => if isPySpace c then some (t.dropWhile isPySpace) else none

/-- Python's `"s".split(',')` (splits at every comma, keeping empty pieces). -/
def splitCommaAux (acc : List Char) : List Char → List String
  | [] => [⟨acc.reverse⟩]
  | c :: t => if c = ',' then ⟨acc.reverse⟩ :: splitCommaAux [] t else splitCommaAux (c :: acc) t

/-- Python's `s.split(',')`. -/
def splitComma (s : String) : List String :=
  splitCommaAux [] s.data

/-- One left-to-right pass implementing `re.sub('<.*?>', '', text)`
(`interview_notify.py`, `remove_html_tags`, lines 228–231): from each `<`,
lazily consume non-newline characters up to the first `>` and drop the whole
tag; a `<` whose first following `>` lies beyond a newline (or end of input)
matches nothing and its characters are kept.  The first argument is the
in-tag flag, the second holds (reversed) the characters tentatively consumed
by the current candidate tag. -/
def stripTagsAux : Bool → List Char → List Char → List Char
  | false, _, [] => []
  | false, p, c :: t => if c = '<' then stripTagsAux true [c] t else c :: stripTagsAux false p t
  | true, p, [] => p.reverse
  | true, p, c :: t =>
    if c = '>' then stripTagsAux false [] t
    else if c = '\n' then p.reverse ++ c :: stripTagsAux false [] t
    else stripTagsAux true (c :: p) t

/-- Embeds `remove_html_tags` (`interview_notify.py` lines 228–231). -/
def remove_html_tags (text : String) : String :=
  ⟨stripTagsAux false [] text.data⟩

/-- Configuration surface consumed by the trigger functions: `args.nick`,
`args.check_bot_nicks`, and the comma-separated `args.bot_nicks`. -/
structure Config where
  nick : String
  checkBotNicks : Bool
  botNicks : String

/-- Embeds `bot_nick_prefix` (`interview_notify.py` lines 233–236):
prefix a trigger with each configured bot nick. -/
def bot_nick_prefix (cfg : Config) (trigger : String) : List String :=
  (splitComma cfg.botNicks).map fun nick => pyStrip nick ++ "> " ++ trigger

/-- Embeds `check_trigger` (`interview_notify.py` lines 152–158). -/
def check_trigger (cfg : Config) (line trigger : String) (disregard_bot_nicks : Bool) : Bool :=
  if disregard_bot_nicks || !cfg.checkBotNicks then
    pyIn trigger (remove_html_tags line)
  else
    ( bot_nick_prefix cfg trigger).any fun t => pyIn t line

/-- Embeds `check_words` (`interview_notify.py` lines 160–171). -/
def check_words (cfg : Config) (line : String) (triggers : List String) (check_nick : Bool) : Bool :=
  triggers.any fun trigger =>
    (splitComma cfg.botNicks).any fun bot0 =>
      let bot := pyStrip bot0
      if check_nick then
        pyIn cfg.nick line && pyIn bot line && pyIn (lowerStr trigger) (lowerStr line)
      else
        pyIn bot line && pyIn (lowerStr trigger) (lowerStr line)

/-- Embeds `check_netsplit` (`interview_notify.py` lines 173–183). -/
def check_netsplit (line : String) : Bool :=
  if !(pyIn "left IRC" line) then false
  else if pyIn "*.net *.split" line then true
  else if pyIn "Ping timeout: 121 seconds" line then true
  else false

/-- Notification categories, named as in the `notification_type` arguments of
the `notify` calls in `log_parse`. -/
inductive NotifType where
  | your_interview
  | interview
  | mention
  | disconnect
  | netsplit
  | kick
deriving DecidableEq

/-- The notification trigger chain of `log_parse`
(`interview_notify.py` lines 117–135): the `if/elif` cascade mapping a line
to at most one notification category. -/
def detect (cfg : Config) (line : String) : Option NotifType :=
  if check_trigger cfg line ("Currently interviewing: " ++ cfg.nick) false then some .your_interview
  else if check_trigger cfg line "Currently interviewing:" false then some .interview
  else if check_trigger cfg line (cfg.nick ++ ":") true then some .mention
  else if pyIn "Disconnected" line then some .disconnect
  else if check_netsplit line then some .netsplit
  else if check_words cfg line ["kick"] true then some .kick
  else none

/-- The six triggers of `log_parse` paired with their categories, in source
order, as an explicit priority list. -/
def triggerList (cfg : Config) : List (NotifType × (String → Bool)) :=
  [ (.your_interview, fun l => check_trigger cfg l ("Currently interviewing: " ++ cfg.nick) false),
    (.interview, fun l => check_trigger cfg l "Currently interviewing:" false),
    (.mention, fun l => check_trigger cfg l (cfg.nick ++ ":") true),
    (.disconnect, fun l => pyIn "Disconnected" l),
    (.netsplit, fun l => check_netsplit l),
    (.kick, fun l => check_words cfg l ["kick"] true) ]

/-- Tail of the `parse_interview_start` regex after the second `:::`, namely
`\s+(\d+)\s+remaining in queue` (case-insensitive); returns the digits of the
captured queue length.  Each greedy piece is followed by a piece starting on a
disjoint character class, so the match is deterministic. -/
def startTail (cs : List Char) : Option (List Char) :=
  (reqSpaces cs).bind fun cs1 =>
    let digits := cs1.takeWhile isDigitC
    if digits.isEmpty then none
    else
      (reqSpaces (cs1.dropWhile isDigitC)).bind fun cs2 =>
        (dropLitCI "remaining in queue".data cs2).map fun _ => digits

/-- Lazy middle `.*?:::` (then `startTail`) of the `parse_interview_start`
regex: try the closing `:::` at the current position first, and on failure
consume one non-newline character and retry, exactly as the lazy quantifier
backtracks. -/
def startMiddle : List Char → Option (List Char)
  | [] => none
  | c :: t =>
    match (dropLit ":::".data (c :: t)).bind startTail with
    | some d => some d
    | none => if c = '\n' then none else startMiddle t

/-- Match the `parse_interview_start` regex
`Currently interviewing:\s+([^\s:]+)\s+:::.*?:::\s+(\d+)\s+remaining in queue`
(with `re.IGNORECASE`) anchored at the given position; returns the two capture
groups (username characters, queue-length digits). -/
def matchStartAt (cs : List Char) : Option (List Char × List Char) :=
  (dropLitCI "currently interviewing:".data cs).bind fun cs1 =>
    (reqSpaces cs1).bind fun cs2 =>
      let uname := cs2.takeWhile fun c => !isPySpace c && c ≠ ':'
      if uname.isEmpty then none
      else
        (reqSpaces (cs2.dropWhile fun c => !isPySpace c && c ≠ ':')).bind fun cs3 =>
          (dropLit ":::".data cs3).bind fun cs4 =>
            (startMiddle cs4).map fun d => (uname, d)

/-- Leftmost search of `re.search` for the interview-start pattern: try each
start position from the left, first hit wins. -/
def searchStart : List Char → Option (List Char × List Char)
  | [] => none
  | c :: t =>
    match matchStartAt (c :: t) with
    | some r => some r
    | none => searchStart t

/-- Value of an ASCII digit string (Python's `int` on the `\d+` capture). -/
def digitsToNat (ds : List Char) : Nat :=
  ds.foldl (fun acc c => 10 * acc + (c.toNat - 48)) 0

/-- Embeds `parse_interview_start` (`interview_notify.py` lines 185–198):
`re.search` for the interview-start pattern, then `group(1).strip()` and
`int(group(2))`.  The `try/except` cannot fire on a successful match (the
digits capture always converts), so it is not represented. -/
def parse_interview_start (line : String) : Option (String × Nat) :=
  (searchStart line.data).map fun r => (pyStrip ⟨r.1⟩, digitsToNat r.2)

/-- Lazy part `(.+?)\)\s*$` of the `parse_interview_outcome` regex, after at
least one character has been consumed into the accumulator: close at the
first `)` whose remainder is all whitespace (this is exactly where `\s*$`
succeeds, `$` matching at end of string or before a final newline, itself
whitespace); otherwise consume the character (which `.` requires to be
non-newline) into the captured message. -/
def kickMsgLoop (acc : List Char) : List Char → Option (List Char)
  | [] => none
  | c :: t =>
    if c = ')' && t.all isPySpace then some acc.reverse
    else if c = '\n' then none
    else kickMsgLoop (c :: acc) t

/-- Entry to `(.+?)\)\s*$`: the lazy `+` consumes one (non-newline) character
before the first attempt to close. -/
def kickMsgStart : List Char → Option (List Char)
  | [] => none
  | c :: t => if c = '\n' then none else kickMsgLoop [c] t

/-- Match the `parse_interview_outcome` regex
`Gatekeeper kicked\s+([^\s]+)\s+from the channel\s*\((.+?)\)\s*$`
anchored at the given position; returns the username and message captures. -/
def matchKickAt (cs : List Char) : Option (List Char × List Char) :=
  (dropLit "Gatekeeper kicked".data cs).bind fun cs1 =>
    (reqSpaces cs1).bind fun cs2 =>
      let uname := cs2.takeWhile fun c => !isPySpace c
      if uname.isEmpty then none
      else
        (reqSpaces (cs2.dropWhile fun c => !isPySpace c)).bind fun cs3 =>
          (dropLit "from the channel".data cs3).bind fun cs4 =>
            match cs4.dropWhile isPySpace with
            | '(' :: rest => (kickMsgStart rest).map fun m => (uname, m)
            | _ => none

/-- Leftmost search of `re.search` for the kick-outcome pattern. -/
def searchKick : List Char → Option (List Char × List Char)
  | [] => none
  | c :: t =>
    match matchKickAt (c :: t) with
    | some r => some r
    | none => searchKick t

/-- Embeds `parse_interview_outcome` (`interview_notify.py` lines 200–226):
regex extraction of the kicked username and parenthesized reason, then
case-insensitive classification of the reason into `passed`/`failed`/`missed`
(the `try/except` cannot fire on a successful match, so it is not
represented). -/
def parse_interview_outcome (line : String) : Option (String × String × String) :=
  match searchKick line.data with
  | none => none
  | some (u, m) =>
    let username := pyStrip ⟨u⟩
    let message := pyStrip ⟨m⟩
    let ml := lowerStr message
    if pyIn "congratulations" ml && pyIn "welcome to" ml then
      some (username, "passed", message)
    else if pyIn "not passed the interview" ml || pyIn "you have not passed" ml then
      some (username, "failed", message)
    else if pyIn "missed your interview" ml then
      some (username, "missed", message)
    else none

/-- The `--rate-limit` argparse default (`interview_notify.py` line 45). -/
def defaultRateLimit : Int := 60

/-- The safety-critical notification types of `should_rate_limit`
(`interview_notify.py` line 266). -/
def criticalTypes : List String := ["your_interview", "disconnect", "kick"]

/-- Point update of the `recent_notifications` map. -/
def updateRecent (recent : String → Option Int) (k : String) (v : Int) : String → Option Int :=
  fun k2 => if k2 = k then some v else recent k2

/-- Embeds `should_rate_limit` (`interview_notify.py` lines 260–278) as a pure
state transformer: given the rate-limit window, the `recent_notifications`
map, the notification type and the current time (timestamps modelled as
integers), return whether the notification is suppressed together with the
updated map. -/
def should_rate_limit (rate_limit : Int) (recent : String → Option Int)
    (notification_type : String) (current_time : Int) : Bool × (String → Option Int) :=
  if notification_type ∈ criticalTypes then
    (false, updateRecent recent notification_type current_time)
  else
    match recent notification_type with
    | some last =>
      if current_time - last < rate_limit then (true, recent)
      else (false, updateRecent recent notification_type current_time)
    | none => (false, updateRecent recent notification_type current_time)

/-- The reserved generic directory names of `log_parse`
(`interview_notify.py` line 92). -/
def reservedChannelNames : List String := [".", "..", "logs", "Channels"]

/-- CPython's `PurePath.stem`: the file name minus its last suffix, where a
suffix starts at the last dot only if that dot is neither leading nor
trailing. -/
def pyStem (name : String) : String :=
  let cs := name.data
  match (cs.reverse.findIdx? fun c => c = '.') with
  | some j =>
    let i := cs.length - 1 - j
    if 0 < i ∧ i < cs.length - 1 then ⟨cs.take i⟩ else name
  | none => name

/-- The channel-identifier derivation of `log_parse`
(`interview_notify.py` lines 89–95).  The first argument models
`log_path.parent.name` and the second `log_path.name`, each `none` when the
attribute access raises (the `except` branch); the code reads the file name
only when the parent name is empty or reserved. -/
def channel_of (parentName fileName : Option String) : String :=
  match parentName with
  | none => "unknown"
  | some p =>
    if p = "" ∨ p ∈ reservedChannelNames then
      match fileName with
      | some fn => pyStem fn
      | none => "unknown"
    else p

/-- A Python value passed as `username`: a string or some non-string value. -/
inductive PyValue where
  | str (s : String)
  | other
deriving DecidableEq

/-- A row of the `interviews` table as inserted by
`interview_database.py` (`timestamp` kept abstract as the supplied string). -/
structure InterviewRow where
  username : String
  timestamp : String
  event_type : String
  queue_length : Option Int
  channel : Option String
  outcome_message : Option String
deriving DecidableEq

/-- Python's `x[:n] if x else None` on an optional string (an empty string is
falsy). -/
def truncOpt (n : Nat) : Option String → Option String
  | some c => if c = "" then none else some (pyTake n c)
  | none => none

/-- Embeds `InterviewDatabase.record_interview_start`
(`interview_database.py` lines 93–111) over a list-of-rows model of the
`interviews` table; `now` models `datetime.now().isoformat()`.  A negative
queue length is replaced by `NULL` as in the source (a non-integer queue
length is not representable in this typed model). -/
def record_interview_start (db : List InterviewRow) (now : String) (username : PyValue)
    (queue_length : Option Int) (channel : Option String) : List InterviewRow :=
  match username with
  | .other => db
  | .str s =>
    if s = "" then db
    else
      let ql := match queue_length with
        | some n => if n < 0 then none else some n
        | none => none
      db ++ [{ username := pyTake 100 s, timestamp := now, event_type := "started",
               queue_length := ql, channel := truncOpt 100 channel, outcome_message := none }]

/-- Embeds `InterviewDatabase.record_interview_outcome`
(`interview_database.py` lines 113–131) over the same model. -/
def record_interview_outcome (db : List InterviewRow) (now : String) (username : PyValue)
    (outcome : String) (message : Option String) (channel : Option String) : List InterviewRow :=
  match username with
  | .other => db
  | .str s =>
    if s = "" then db
    else if outcome ∈ (["passed", "failed", "missed"] : List String) then
      db ++ [{ username := pyTake 100 s, timestamp := now, event_type := outcome,
               queue_length := none, channel := truncOpt 100 channel,
               outcome_message := truncOpt 500 message }]
    else db

/-! ### Helper lemmas -/

theorem dropLit_isPrefix {lit cs r : List Char} (h : dropLit lit cs = some r) :
    isPrefixL lit cs = true := by
  induction lit generalizing cs with
  | nil => simp [isPrefixL]
  | cons l lt ih =>
    cases cs with
    | nil => simp [dropLit] at h
    | cons c ct =>
      simp only [dropLit] at h
      by_cases hc : c = l
      · simp only [hc, if_true] at h
        simp [isPrefixL, hc, ih h]
      · simp [hc] at h

theorem matchKickAt_prefix {cs : List Char} {r : List Char × List Char}
    (h : matchKickAt cs = some r) : isPrefixL "Gatekeeper kicked".data cs = true := by
  rw [matchKickAt] at h
  cases hd : dropLit "Gatekeeper kicked".data cs with
  | none => rw [hd] at h; simp at h
  | some rest => exact dropLit_isPrefix hd

theorem searchKick_contains {cs : List Char} {r : List Char × List Char}
    (h : searchKick cs = some r) : containsL "Gatekeeper kicked".data cs = true := by
  induction cs with
  | nil => simp [searchKick] at h
  | cons c t ih =>
    rw [searchKick] at h
    cases hm : matchKickAt (c :: t) with
    | some r2 => simp [containsL, matchKickAt_prefix hm]
    | none =>
      rw [hm] at h
      simp [containsL, ih h]


/-! ### Claim theorems -/

/-- C1: for every input line, the notification triggers of `log_parse` are
evaluated in the fixed priority order interview-on-self, interview-on-other,
mention, disconnect, netsplit, kick; the first matching trigger fires (so at
most one notification category is produced per line), and a line matching no
trigger produces no notification. -/
theorem C1_trigger_priority (cfg : Config) (line : String) :
    detect cfg line
      = (triggerList cfg).findSome? (fun p => if p.2 line then some p.1 else none)
    ∧ ((∀ p ∈ triggerList cfg, p.2 line = false) → detect cfg line = none) := by
  constructor
  · simp only [detect, triggerList, List.findSome?]
    cases h1 : check_trigger cfg line ("Currently interviewing: " ++ cfg.nick) false <;>
      cases h2 : check_trigger cfg line "Currently interviewing:" false <;>
        cases h3 : check_trigger cfg line (cfg.nick ++ ":") true <;>
          cases h4 : pyIn "Disconnected" line <;>
            cases h5 : check_netsplit line <;>
              cases h6 : check_words cfg line ["kick"] true <;>
                simp [h1, h2, h3, h4, h5, h6]
  · intro h
    simp only [triggerList, List.mem_cons, List.not_mem_nil, or_false, forall_eq_or_imp,
      forall_eq] at h
    obtain ⟨h1, h2, h3, h4, h5, h6⟩ := h
    simp [detect, h1, h2, h3, h4, h5, h6]

/-- C1 witness: a generic chat line fires no trigger and yields no
notification. -/
theorem C1_trigger_priority_witness :
    detect ⟨"bob", true, "Gatekeeper"⟩ "hello world" = none :=
  (C1_trigger_priority ⟨"bob", true, "Gatekeeper"⟩ "hello world").2 (by decide)

/-- C2: categories `your_interview`, `disconnect`, `kick` are never suppressed
and always refresh their last-sent timestamp; any other category is
suppressed iff a notification of the same category was accepted less than the
rate-limit window (default 60 seconds) before, the window measured from the
last accepted send; a suppressed attempt leaves the stored map unchanged,
while an accepted one refreshes exactly its own category's timestamp. -/
theorem C2_rate_limiting (rl : Int) (recent : String → Option Int) (nt : String) (now : Int) :
    defaultRateLimit = 60
    ∧ (nt ∈ criticalTypes →
        (should_rate_limit rl recent nt now).1 = false
        ∧ (should_rate_limit rl recent nt now).2 nt = some now)
    ∧ (nt ∉ criticalTypes →
        ((should_rate_limit rl recent nt now).1 = true ↔
          ∃ last, recent nt = some last ∧ now - last < rl))
    ∧ ((should_rate_limit rl recent nt now).1 = true →
        (should_rate_limit rl recent nt now).2 = recent)
    ∧ ((should_rate_limit rl recent nt now).1 = false →
        (should_rate_limit rl recent nt now).2 nt = some now
        ∧ ∀ k, k ≠ nt → (should_rate_limit rl recent nt now).2 k = recent k) := by
  refine ⟨rfl, ?_, ?_, ?_, ?_⟩
  · intro hc
    simp [should_rate_limit, hc, updateRecent]
  · intro hc
    rw [should_rate_limit, if_neg hc]
    cases hr : recent nt with
    | none => simp
    | some last =>
      by_cases hlt : now - last < rl
      · simp [hlt]
      · simp [hlt]
  · intro ht
    by_cases hc : nt ∈ criticalTypes
    · simp [should_rate_limit, hc] at ht
    · rw [should_rate_limit, if_neg hc] at ht ⊢
      cases hr : recent nt with
      | none => rw [hr] at ht; simp at ht
      | some last =>
        rw [hr] at ht
        by_cases hlt : now - last < rl
        · simp [hlt]
        · simp [hlt] at ht
  · intro hf
    by_cases hc : nt ∈ criticalTypes
    · simp [should_rate_limit, hc, updateRecent]
      exact fun k hk hk2 => absurd hk2 hk
    · rw [should_rate_limit, if_neg hc] at hf ⊢
      cases hr : recent nt with
      | none =>
        simp [updateRecent]
        exact fun k hk hk2 => absurd hk2 hk
      | some last =>
        rw [hr] at hf
        by_cases hlt : now - last < rl
        · simp [hlt] at hf
        · simp [hlt, updateRecent]
          exact fun k hk hk2 => absurd hk2 hk

/-- C2 witness: with an empty history, a `kick` is never suppressed and
refreshes its timestamp, and a `mention` is suppressed iff there is a prior
accepted send inside the window. -/
theorem C2_rate_limiting_witness :
    ((should_rate_limit 60 (fun _ => none) "kick" 5).1 = false
      ∧ (should_rate_limit 60 (fun _ => none) "kick" 5).2 "kick" = some 5)
    ∧ ((should_rate_limit 60 (fun _ => none) "mention" 0).1 = true ↔
        ∃ last, (fun _ => none : String → Option Int) "mention" = some last ∧ (0 : Int) - last < 60) :=
  ⟨(C2_rate_limiting 60 (fun _ => none) "kick" 5).2.1 (by decide),
   (C2_rate_limiting 60 (fun _ => none) "mention" 0).2.2.1 (by decide)⟩

/-- C3 counterexample: with self-nick `bob`, the line `bob<x>: hi` does not
contain the substring `bob:` raw, yet the mention trigger fires on it — the
check runs on the HTML-tag-stripped line, not the raw line, refuting the
claim as stated. -/
theorem C3_counterexample :
    detect ⟨"bob", true, "Gatekeeper"⟩ "bob<x>: hi" = some NotifType.mention
    ∧ pyIn ("bob" ++ ":") "bob<x>: hi" = false := by decide

/-- C3 amended: the mention trigger fires exactly when the substring
`<self-nick>:` occurs in the HTML-tag-stripped input line (tags removed via
the non-greedy `<.*?>` substitution), and this check is independent of the
bot-nick-scoping setting and of the configured bot nicks. -/
theorem C3_mention_on_stripped_line (nick botNicks line : String) (b : Bool) :
    check_trigger ⟨nick, b, botNicks⟩ line (nick ++ ":") true
      = pyIn (nick ++ ":") (remove_html_tags line) := by
  simp [check_trigger]

/-- C4 counterexample: with scoping disabled, a kick line containing the
self-nick and the word `kicked` but no configured bot nick fires nothing
(the kick check still demands a bot nick); and with scoping enabled an
interview line fires even though the line itself is not prefixed by a bot
nick (the bot-nick pattern may occur anywhere in the line). -/
theorem C4_counterexample :
    detect ⟨"bob", false, "Gatekeeper"⟩ "bob was kicked" = none
    ∧ pyIn "bob" "bob was kicked" = true
    ∧ pyIn "kick" (lowerStr "bob was kicked") = true
    ∧ detect ⟨"bob", true, "Gatekeeper"⟩ "x Gatekeeper> Currently interviewing: alice"
        = some NotifType.interview := by decide

/-- C4 amended: when bot-nick scoping is enabled, the two interview triggers
fire only if the line contains a configured (whitespace-stripped) bot nick
followed by `> ` and the pattern; when scoping is disabled they fire on the
bare pattern in the HTML-tag-stripped line.  The kick trigger ignores the
scoping setting altogether: it always fires exactly when the line contains
the self-nick, a configured bot nick, and the word `kick` case-insensitively. -/
theorem C4_bot_nick_scoping (nick botNicks line trigger : String) (b b2 : Bool) :
    (check_trigger ⟨nick, true, botNicks⟩ line trigger false
        = ( bot_nick_prefix ⟨nick, true, botNicks⟩ trigger).any fun t => pyIn t line)
    ∧ (check_trigger ⟨nick, false, botNicks⟩ line trigger false
        = pyIn trigger (remove_html_tags line))
    ∧ (check_words ⟨nick, b, botNicks⟩ line ["kick"] true
        = check_words ⟨nick, b2, botNicks⟩ line ["kick"] true)
    ∧ (check_words ⟨nick, b, botNicks⟩ line ["kick"] true
        = (splitComma botNicks).any fun bot0 =>
            pyIn nick line && pyIn (pyStrip bot0) line && pyIn (lowerStr "kick") (lowerStr line)) := by
  refine ⟨?_, ?_, rfl, ?_⟩
  · simp [check_trigger]
  · simp [check_trigger]
  · simp [check_words]

/-- C5: the netsplit trigger fires iff the line contains `left IRC` and
additionally contains `*.net *.split` or `Ping timeout: 121 seconds`; in
particular a `left IRC` line with `Ping timeout: 60 seconds` does not fire
it, while one with `Ping timeout: 121 seconds` does. -/
theorem C5_netsplit :
    (∀ line, check_netsplit line
        = (pyIn "left IRC" line
            && (pyIn "*.net *.split" line || pyIn "Ping timeout: 121 seconds" line)))
    ∧ check_netsplit "user123 left IRC (Ping timeout: 60 seconds)" = false
    ∧ check_netsplit "user123 left IRC (Ping timeout: 121 seconds)" = true := by
  refine ⟨fun line => ?_, by decide, by decide⟩
  cases h1 : pyIn "left IRC" line <;>
    cases h2 : pyIn "*.net *.split" line <;>
      cases h3 : pyIn "Ping timeout: 121 seconds" line <;>
        simp [check_netsplit, h1, h2, h3]

/-- C6 counterexample: a kick reason containing both the passed phrases and
`you have not passed` is classified `passed`, not `failed` — the claim's
conditions are checked in a fixed priority order, not independently. -/
theorem C6_counterexample :
    parse_interview_outcome
        "Gatekeeper kicked alice from the channel (Congratulations and welcome to TheClub but you have not passed)"
      = some ("alice", "passed", "Congratulations and welcome to TheClub but you have not passed")
    ∧ pyIn "you have not passed"
        (lowerStr "Congratulations and welcome to TheClub but you have not passed") = true := by
  decide

/-- C6 amended: for every kick-outcome line matched by the structured
extraction, the captured reason is classified by the first matching condition
in this order: `passed` if it contains both `congratulations` and
`welcome to` (case-insensitive); otherwise `failed` if it contains
`not passed the interview` or `you have not passed`; otherwise `missed` if it
contains `missed your interview`; a message matching none of these yields no
outcome event. -/
theorem C6_outcome_classification (line : String) (u m : List Char)
    (h : searchKick line.data = some (u, m)) :
    parse_interview_outcome line =
      (if pyIn "congratulations" (lowerStr (pyStrip ⟨m⟩))
          && pyIn "welcome to" (lowerStr (pyStrip ⟨m⟩)) then
        some (pyStrip ⟨u⟩, "passed", pyStrip ⟨m⟩)
      else if pyIn "not passed the interview" (lowerStr (pyStrip ⟨m⟩))
          || pyIn "you have not passed" (lowerStr (pyStrip ⟨m⟩)) then
        some (pyStrip ⟨u⟩, "failed", pyStrip ⟨m⟩)
      else if pyIn "missed your interview" (lowerStr (pyStrip ⟨m⟩)) then
        some (pyStrip ⟨u⟩, "missed", pyStrip ⟨m⟩)
      else none) := by
  simp only [parse_interview_outcome, h]

/-- C6 witness: the classification theorem applied to a concrete missed-kick
line. -/
theorem C6_outcome_classification_witness :
    parse_interview_outcome "Gatekeeper kicked bob from the channel (you missed your interview)"
      = some ("bob", "missed", "you missed your interview") :=
  (C6_outcome_classification "Gatekeeper kicked bob from the channel (you missed your interview)"
    "bob".data "you missed your interview".data (by decide)).trans (by decide)

/-- C7: the structured interview-start extraction captures the username and
the trailing queue-length integer preceding `remaining in queue`; on the
line `Currently interviewing: alice ::: #chan ::: 5 remaining in queue.` it
returns username `alice` and queue length `5` (and analogously on a second
line with a different username and count). -/
theorem C7_interview_start_extraction :
    parse_interview_start "Currently interviewing: alice ::: #chan ::: 5 remaining in queue."
      = some ("alice", 5)
    ∧ parse_interview_start
        "blah <Gatekeeper> Currently interviewing: x_y-9 ::: #red ::: 123 remaining in queue."
      = some ("x_y-9", 123)
    ∧ parse_interview_start "hello world" = none := by decide

/-- C8: the analytics channel identifier is the log file's parent directory
name; if that is empty or one of the reserved placeholder names
(`.`, `..`, `logs`, `Channels`) it falls back to the file's base name without
extension; if that too is unavailable it is the literal `unknown`. -/
theorem C8_channel_derivation :
    (∀ p f, p ≠ "" → p ∉ reservedChannelNames → channel_of (some p) f = p)
    ∧ (∀ p fn, p = "" ∨ p ∈ reservedChannelNames → channel_of (some p) (some fn) = pyStem fn)
    ∧ (∀ f, channel_of none f = "unknown")
    ∧ (∀ p, p = "" ∨ p ∈ reservedChannelNames → channel_of (some p) none = "unknown")
    ∧ channel_of (some "Channels") (some "red-interview.log") = "red-interview" := by
  refine ⟨?_, ?_, fun f => rfl, ?_, by decide⟩
  · intro p f hne hnm
    simp [channel_of, hne, hnm]
  · intro p fn h
    simp only [channel_of]
    rw [if_pos h]
  · intro p h
    simp only [channel_of]
    rw [if_pos h]

/-- C8 witness: a reserved parent directory name falls back to the file's
stem. -/
theorem C8_channel_derivation_witness :
    channel_of (some "logs") (some "chan.log") = pyStem "chan.log" :=
  C8_channel_derivation.2.1 "logs" "chan.log" (Or.inr (by decide))

/-- C9: the interview-outcome extraction is hardcoded to the literal,
case-sensitive kicker `Gatekeeper`: any line not containing
`Gatekeeper kicked` yields no event (in particular a differently named or
differently cased kicker), while the same line with `Gatekeeper` parses. -/
theorem C9_outcome_requires_gatekeeper :
    (∀ line : String, pyIn "Gatekeeper kicked" line = false →
        parse_interview_outcome line = none)
    ∧ parse_interview_outcome "Doorman kicked alice from the channel (you have not passed)" = none
    ∧ parse_interview_outcome "GATEKEEPER kicked alice from the channel (you have not passed)" = none
    ∧ parse_interview_outcome "Gatekeeper kicked alice from the channel (you have not passed)"
        = some ("alice", "failed", "you have not passed") := by
  refine ⟨?_, by decide, by decide, by decide⟩
  intro line h
  cases hs : searchKick line.data with
  | none => simp [parse_interview_outcome, hs]
  | some r =>
    exfalso
    have hc : containsL "Gatekeeper kicked".data line.data = true :=
      searchKick_contains (r := r) hs
    rw [pyIn] at h
    rw [h] at hc
    exact Bool.noConfusion hc

/-- C9 witness: a generic line without `Gatekeeper kicked` yields no outcome
event. -/
theorem C9_outcome_requires_gatekeeper_witness :
    parse_interview_outcome "hello world" = none :=
  C9_outcome_requires_gatekeeper.1 "hello world" (by decide)

/-- Strings truncated to `n` characters are at most `n` long and stay
non-empty when the input is non-empty. -/
theorem pyTake_ne_empty_of_ne {s : String} (n : Nat) (hn : 0 < n) (hs : s ≠ "") :
    pyTake n s ≠ "" ∧ (pyTake n s).length ≤ n := by
  constructor
  · intro hc
    apply hs
    have hdata : s.data.take n = [] := congrArg String.data hc
    rcases List.take_eq_nil_iff.mp hdata with h | h
    · omega
    · cases s with
      | mk data => cases data with
        | nil => rfl
        | cons a l => simp at h
  · show (s.data.take n).length ≤ n
    simp [List.length_take]

/-- C10: every row inserted by `record_interview_start` or
`record_interview_outcome` has an event type among
`started`/`passed`/`failed`/`missed` and a non-empty username of at most 100
characters; a call with an empty or non-string username, or an outcome
outside `passed`/`failed`/`missed`, inserts nothing and leaves the table
unchanged. -/
theorem C10_interview_row_invariants (db : List InterviewRow) (now : String) (u : PyValue)
    (ql : Option Int) (ch : Option String) (o : String) (msg : Option String) (r : InterviewRow) :
    (r ∈ record_interview_start db now u ql ch →
      r ∈ db ∨ (r.event_type ∈ (["started", "passed", "failed", "missed"] : List String)
                ∧ r.username ≠ "" ∧ r.username.length ≤ 100))
    ∧ (r ∈ record_interview_outcome db now u o msg ch →
      r ∈ db ∨ (r.event_type ∈ (["started", "passed", "failed", "missed"] : List String)
                ∧ r.username ≠ "" ∧ r.username.length ≤ 100))
    ∧ ((u = .other ∨ u = .str "") →
      record_interview_start db now u ql ch = db
      ∧ record_interview_outcome db now u o msg ch = db)
    ∧ (o ∉ (["passed", "failed", "missed"] : List String) →
      record_interview_outcome db now u o msg ch = db) := by
  cases u with
  | other =>
    refine ⟨fun hm => Or.inl ?_, fun hm => Or.inl ?_, fun _ => ⟨rfl, rfl⟩, fun _ => rfl⟩
    · simpa [record_interview_start] using hm
    · simpa [record_interview_outcome] using hm
  | str s =>
    by_cases hs : s = ""
    · subst hs
      refine ⟨fun hm => Or.inl ?_, fun hm => Or.inl ?_, fun _ => ⟨rfl, rfl⟩, fun _ => rfl⟩
      · simpa [record_interview_start] using hm
      · simpa [record_interview_outcome] using hm
    · have hkey := pyTake_ne_empty_of_ne 100 (by omega) hs
      refine ⟨?_, ?_, ?_, ?_⟩
      · intro hm
        simp only [record_interview_start, if_neg hs, List.mem_append] at hm
        rcases hm with hm | hm
        · exact Or.inl hm
        · right
          simp only [List.mem_singleton] at hm
          subst hm
          exact ⟨by simp, hkey.1, hkey.2⟩
      · intro hm
        by_cases ho : o ∈ (["passed", "failed", "missed"] : List String)
        · simp only [record_interview_outcome, if_neg hs, if_pos ho, List.mem_append] at hm
          rcases hm with hm | hm
          · exact Or.inl hm
          · right
            simp only [List.mem_singleton] at hm
            subst hm
            refine ⟨?_, hkey.1, hkey.2⟩
            simp only [List.mem_cons] at ho ⊢
            tauto
        · simp only [record_interview_outcome, if_neg hs, if_neg ho] at hm
          exact Or.inl hm
      · intro hcontra
        rcases hcontra with hcontra | hcontra
        · exact PyValue.noConfusion hcontra
        · exact absurd (by injection hcontra) hs
      · intro ho
        simp [record_interview_outcome, hs, ho]

/-- C10 witness: an outcome outside the allowed set inserts nothing. -/
theorem C10_interview_row_invariants_witness :
    record_interview_outcome [] "2024-01-01T00:00:00" (.str "alice") "unknown_outcome" none none
      = [] :=
  (C10_interview_row_invariants [] "2024-01-01T00:00:00" (.str "alice") none none
    "unknown_outcome" none
    ⟨"x", "t", "e", none, none, none⟩).2.2.2 (by decide)
